import Mathlib

set_option maxRecDepth 4000
set_option maxHeartbeats 4000000

/-!
# Verification of the StarBot feature-sorting algorithms

A shallow embedding of `src/sorting_algs.py`: the `Feature` record, the
reading-order sort `sort_features_A` and the grid aligner `sort_features_B`,
together with the fixture data `times_1` and `numbers_1`, and theorems about
their behaviour.

Conventions of the embedding:
* Python integers become `Int`; the true division used for the expected
  column positions becomes exact rational arithmetic over `ℚ`.
* Python's stable `sorted` becomes `List.insertionSort`, which inserts each
  earlier element before later elements with an equal key, reproducing the
  stable ordering of CPython's sort for both the descending-`y` and the
  ascending-`x` passes.
* The `ZeroDivisionError` that Python raises in `sort_features_B` when
  `expected_cols == 1` and a row holds two or more features is modelled by
  returning `Except.error ()`; every normal return is `Except.ok`.
* The `id`-based `used` set is modelled by a `Bool` "claimed" flag carried
  next to each element of the sorted row, so that each list element is
  usable at most once even when feature values collide.
-/

/-- One detected text fragment: recognized text plus pixel coordinates. -/
structure Feature where
  text : String
  x : Int
  y : Int
deriving DecidableEq

/-- Key order of the descending-`y` sort: `a` may come before `b` iff
`b.y ≤ a.y` (higher `y` means closer to the top of the page). -/
def descY (a b : Feature) : Prop := b.y ≤ a.y

/-- Key order of the ascending-`x` sort: `a` may come before `b` iff
`a.x ≤ b.x` (left to right within a row). -/
def ascX (a b : Feature) : Prop := a.x ≤ b.x

instance : DecidableRel descY := fun a b => inferInstanceAs (Decidable (b.y ≤ a.y))

instance : DecidableRel ascX := fun a b => inferInstanceAs (Decidable (a.x ≤ b.x))

instance : IsTotal Feature descY := ⟨fun a b => le_total b.y a.y⟩

instance : IsTrans Feature descY := ⟨fun _ _ _ hab hbc => le_trans hbc hab⟩

instance : IsTotal Feature ascX := ⟨fun a b => le_total a.x b.x⟩

instance : IsTrans Feature ascX := ⟨fun _ _ _ hab hbc => le_trans hab hbc⟩

/-- `sorted(features, key=lambda f: f.y, reverse=True)`: stable sort by `y`
descending. -/
def sortDescY (fs : List Feature) : List Feature := List.insertionSort descY fs

/-- `sorted(row, key=lambda f: f.x)`: stable sort by `x` ascending. -/
def sortAscX (row : List Feature) : List Feature := List.insertionSort ascX row

/-- The grouping loop shared by `sort_features_A` and `sort_features_B`:
walk the (already `y`-descending) list keeping the current row `cur` and the
`y` of the row's first member (`anchor`); a feature joins the current row iff
its `y` is within `tol` of the anchor, otherwise the row is closed and a new
row is opened with the feature as its anchor. -/
def groupAux (tol : Int) (anchor : Int) (cur : List Feature) : List Feature → List (List Feature)
  | [] => [cur]
  | f :: fs =>
    if |f.y - anchor| ≤ tol then groupAux tol anchor (cur ++ [f]) fs
    else cur :: groupAux tol f.y [f] fs

/-- Group a `y`-descending list of features into rows (lines 27–39 of
`sort_features_A` and lines 69–79 of `sort_features_B`). -/
def groupRows (tol : Int) : List Feature → List (List Feature)
  | [] => []
  | f :: fs => groupAux tol f.y [f] fs

/-- The row-clustering primitive of `sort_features_A`: sort by `y` descending,
group into rows against the row anchor, sort each row by `x` ascending. -/
def rowClusterA (fs : List Feature) (tol : Int) : List (List Feature) :=
  (groupRows tol (sortDescY fs)).map sortAscX

/-- `sort_features_A`: reading-order sort (rows top-to-bottom, each row
left-to-right), the flattening of `rowClusterA`. -/
def sort_features_A (fs : List Feature) (tol : Int) : List Feature :=
  (rowClusterA fs tol).flatten

/-- Step 3 of `sort_features_B`: trim the row list to `r` rows, or pad it
with empty rows, so that exactly `r` rows remain. -/
def padTrim (r : Nat) (rows : List (List Feature)) : List (List Feature) :=
  rows.take r ++ List.replicate (r - rows.length) []

/-- The inner scan of step 4 of `sort_features_B`: find the first unclaimed
feature of the sorted row whose `x` is within `tol_x` of the expected
position `exp`, claim it, and return it together with the updated flags. -/
def scanRow (tolx : ℚ) (exp : ℚ) : List (Feature × Bool) → Option Feature × List (Feature × Bool)
  | [] => (none, [])
  | (f, u) :: rest =>
    if u = false ∧ |(f.x : ℚ) - exp| ≤ tolx then (some f, (f, true) :: rest)
    else
      let p := scanRow tolx exp rest
      (p.1, (f, u) :: p.2)

/-- The outer loop of step 4 of `sort_features_B`: for each expected column
position (`none` for a row with no features) emit the matched feature or
`none`, threading the claimed flags left to right. -/
def assignGo (tolx : ℚ) : List (Feature × Bool) → List (Option ℚ) → List (Option Feature)
  | _, [] => []
  | cells, none :: ps => none :: assignGo tolx cells ps
  | cells, some e :: ps =>
    let p := scanRow tolx e cells
    p.1 :: assignGo tolx p.2 ps

/-- Pair each feature of a sorted row with an unclaimed flag. -/
def withFlags (rs : List Feature) : List (Feature × Bool) := rs.map (fun f => (f, false))

/-- The `while len(new_row) < expected_cols` padding of `sort_features_B`. -/
def padCols (cols : Nat) (nr : List (Option Feature)) : List (Option Feature) :=
  nr ++ List.replicate (cols - nr.length) none

/-- Step 4 of `sort_features_B` for one row: sort the row by `x`, compute
the expected column positions (all `none` for an empty row, all equal to the
single feature's `x` for a singleton row, linear interpolation between the
row's leftmost and rightmost `x` otherwise), then greedily match features to
positions.  Python's `ZeroDivisionError` for `expected_cols == 1` with two
or more features in the row is `Except.error ()`. -/
def alignRow (cols : Nat) (tolx : ℚ) (row : List Feature) : Except Unit (List (Option Feature)) :=
  if hrs : sortAscX row = [] then
    .ok (padCols cols (assignGo tolx (withFlags (sortAscX row)) (List.replicate cols none)))
  else
    if (sortAscX row).length = 1 then
      .ok (padCols cols (assignGo tolx (withFlags (sortAscX row))
        (List.replicate cols (some ((((sortAscX row).head hrs).x : ℚ))))))
    else
      if cols = 1 then .error ()
      else
        .ok (padCols cols (assignGo tolx (withFlags (sortAscX row))
          ((List.range cols).map (fun (i : Nat) => some (((((sortAscX row).head hrs).x : ℚ)) +
            (i : ℚ) * (((((sortAscX row).getLast hrs).x : ℚ) -
              (((sortAscX row).head hrs).x : ℚ)) / ((cols : ℚ) - 1)))))))

/-- Features of `cells` whose claimed flag is still unset (a verification
helper: these are the features the Python `used` set has not yet consumed). -/
def unusedOf : List (Feature × Bool) → List Feature
  | [] => []
  | (f, false) :: rest => f :: unusedOf rest
  | (_, true) :: rest => unusedOf rest

/-- Left-to-right effectful map over the rows: stops at the first row whose
alignment raises, exactly as the Python `for` loop does. -/
def mapRowsE (f : List Feature → Except Unit (List (Option Feature))) :
    List (List Feature) → Except Unit (List (List (Option Feature)))
  | [] => .ok []
  | r :: rs =>
    match f r with
    | .error e => .error e
    | .ok nr =>
      match mapRowsE f rs with
      | .error e => .error e
      | .ok nrs => .ok (nr :: nrs)

/-- `sort_features_B`: align the features to an `expRows × expCols` grid and
flatten it row-major; `Except.error ()` models the one uncaught Python
exception (division by zero when `expected_cols = 1` meets a row with at
least two features). -/
def sort_features_B (fs : List Feature) (expRows expCols : Nat) (toly : Int) (tolx : ℚ) :
    Except Unit (List (Option Feature)) :=
  match mapRowsE (alignRow expCols tolx) (padTrim expRows (groupRows toly (sortDescY fs))) with
  | .error e => .error e
  | .ok grid => .ok grid.flatten

/-- The `times_1` fixture (12 features, from `image_01.json`). -/
def times_1 : List Feature := [
  ⟨"10:47 PM", 331, 3808⟩,
  ⟨"10:13 PM", 306, 2788⟩,
  ⟨"10:29 PM", 1734, 3816⟩,
  ⟨"10:08 PM", 1718, 2780⟩,
  ⟨"9:51 PM", 290, 1759⟩,
  ⟨"9:48 PM", 1710, 1743⟩,
  ⟨"10:26 PM", 3171, 3818⟩,
  ⟨"10:02 PM", 3163, 2772⟩,
  ⟨"9:46 PM", 3154, 1733⟩,
  ⟨"10:23 PM", 4599, 3793⟩,
  ⟨"10:01 PM", 4615, 2762⟩,
  ⟨"9:43 PM", 4607, 1725⟩]

/-- The `numbers_1` fixture (11 features; the text `"4"` of the top-right
panel is missing). -/
def numbers_1 : List Feature := [
  ⟨"1", 132, 3736⟩,
  ⟨"5", 107, 2723⟩,
  ⟨"2", 1519, 3744⟩,
  ⟨"6", 1511, 2714⟩,
  ⟨"9", 83, 1685⟩,
  ⟨"10", 1494, 1668⟩,
  ⟨"3", 2963, 3752⟩,
  ⟨"7", 2947, 2698⟩,
  ⟨"11", 2939, 1668⟩,
  ⟨"8", 4400, 2698⟩,
  ⟨"12", 4400, 1643⟩]

/-! ## Decidability of grid-aligner results -/

instance : DecidableEq (Except Unit (List (Option Feature))) := fun a b =>
  match a, b with
  | .error e, .error e' => by cases e; cases e'; exact isTrue rfl
  | .ok l, .ok l' =>
    if h : l = l' then isTrue (by rw [h]) else isFalse (by intro hc; cases hc; exact h rfl)
  | .error _, .ok _ => isFalse (by intro hc; cases hc)
  | .ok _, .error _ => isFalse (by intro hc; cases hc)

/-! ## C1: anchor semantics of the row-clustering primitive -/

/-- C1, counterexample: the chain y = 0, 90, 180 with `tol_y = 100` is NOT
clustered into a single row — the comparison is against the row's first
member (the anchor), so y = 0 is 180 away from the anchor 180 and opens a
second row. -/
theorem C1_counterexample :
    ¬ ((rowClusterA [⟨"a", 0, 0⟩, ⟨"b", 1, 90⟩, ⟨"c", 2, 180⟩] 100).length = 1) := by
  decide

/-- C1, amended: with `tol_y = 100`, features at y = 0, 90, 180 cluster into
exactly two rows — `[y=180, y=90]` (within 100 of the anchor 180) and
`[y=0]` — and features at y = 0 and y = 150 split into two rows. -/
theorem C1_anchor_semantics :
    rowClusterA [⟨"a", 0, 0⟩, ⟨"b", 1, 90⟩, ⟨"c", 2, 180⟩] 100 =
      [[⟨"b", 1, 90⟩, ⟨"c", 2, 180⟩], [⟨"a", 0, 0⟩]] ∧
    rowClusterA [⟨"p", 0, 0⟩, ⟨"q", 1, 150⟩] 100 =
      [[⟨"q", 1, 150⟩], [⟨"p", 0, 0⟩]] := by
  constructor <;> decide

/-! ## C5: the numbers_1 missing-cell scenario -/

/-- C5: aligning `numbers_1` (11 features) to the default 3×4 grid with
`tol_y = 100`, `tol_x = 20` does NOT produce a single empty slot: the code
returns a grid with SIX `none` cells (columns 1 and 2 of every row), because
the interpolated column positions miss the detected features by more than
`tol_x`; five features are dropped.  The claim's single gap at the missing
`"4"` does not appear. -/
theorem C5_code_behavior :
    sort_features_B numbers_1 3 4 100 20 = Except.ok [
      some ⟨"1", 132, 3736⟩, none, none, some ⟨"3", 2963, 3752⟩,
      some ⟨"5", 107, 2723⟩, none, none, some ⟨"8", 4400, 2698⟩,
      some ⟨"9", 83, 1685⟩, none, none, some ⟨"12", 4400, 1643⟩] ∧
    List.count (none : Option Feature)
      [some (⟨"1", 132, 3736⟩ : Feature), none, none, some ⟨"3", 2963, 3752⟩,
       some ⟨"5", 107, 2723⟩, none, none, some ⟨"8", 4400, 2698⟩,
       some ⟨"9", 83, 1685⟩, none, none, some ⟨"12", 4400, 1643⟩] = 6 := by
  constructor
  · norm_num [sort_features_B, numbers_1, sortDescY, List.insertionSort, List.orderedInsert,
      descY, ascX, groupRows, groupAux, padTrim, mapRowsE, alignRow, sortAscX,
      withFlags, padCols, assignGo, scanRow, List.range_succ, abs_le,
      List.cons_ne_nil, List.head_cons, List.getLast]
  · decide

/-! ## C6: the times_1 reading-order scenario -/

/-- C6, counterexample: `sort_features_A` on `times_1` with the default
tolerance 100 does not yield 4 rows of 3 columns — the clustering yields 3
rows of 4 features each. -/
theorem C6_counterexample :
    ¬ ((rowClusterA times_1 100).map List.length = [3, 3, 3, 3]) := by
  decide

/-- C6, amended: on `times_1` with tolerance 100, `sort_features_A` yields 3
rows of 4 columns, ordered by descending y then ascending x: the
y≈3808/3816/3818/3793 row (x ascending 331, 1734, 3171, 4599) first, then
the y≈2780 row, then the y≈1725 row last. -/
theorem C6_times1_reading_order :
    (rowClusterA times_1 100).map List.length = [4, 4, 4] ∧
    sort_features_A times_1 100 = [
      ⟨"10:47 PM", 331, 3808⟩, ⟨"10:29 PM", 1734, 3816⟩,
      ⟨"10:26 PM", 3171, 3818⟩, ⟨"10:23 PM", 4599, 3793⟩,
      ⟨"10:13 PM", 306, 2788⟩, ⟨"10:08 PM", 1718, 2780⟩,
      ⟨"10:02 PM", 3163, 2772⟩, ⟨"10:01 PM", 4615, 2762⟩,
      ⟨"9:51 PM", 290, 1759⟩, ⟨"9:48 PM", 1710, 1743⟩,
      ⟨"9:46 PM", 3154, 1733⟩, ⟨"9:43 PM", 4607, 1725⟩] := by
  constructor <;> decide

/-! ## C7: behaviour on non-positive grid dimensions -/

/-- C7: `sort_features_B` performs no argument validation: with
`expected_rows = 0` (or `expected_cols = 0`) and a nonempty feature list it
silently returns an empty grid instead of failing fast with an
invalid-argument signal. -/
theorem C7_code_behavior :
    sort_features_B [⟨"a", 10, 10⟩] 0 4 100 20 = Except.ok [] ∧
    sort_features_B [⟨"a", 10, 10⟩] 3 0 100 20 = Except.ok [] := by
  constructor <;> decide

/-! ## C2 and C3: grid shape and absence of exceptions -/

/-- C2, counterexample: with `expected_cols = 1` and two features in one
row, `sort_features_B` raises (Python's `ZeroDivisionError` from the
interpolation step), so it does not return a sequence of
`expected_rows * expected_cols` elements. -/
theorem C2_counterexample :
    ¬ ∃ out, sort_features_B [⟨"a", 0, 0⟩, ⟨"b", 50, 0⟩] 1 1 100 20 = Except.ok out := by
  intro ⟨out, hout⟩
  have h : sort_features_B [⟨"a", 0, 0⟩, ⟨"b", 50, 0⟩] 1 1 100 20 = Except.error () := by
    decide
  rw [h] at hout
  cases hout

/-- C3, counterexample: `expected_rows = 2`, `expected_cols = 1` are
positive, yet two features sharing a row make `sort_features_B` raise
(division by zero computing the column step). -/
theorem C3_counterexample :
    sort_features_B [⟨"u", 0, 7⟩, ⟨"v", 9, 7⟩] 2 1 100 20 = Except.error () := by
  decide

/-! ## Structural lemmas about the row grouping -/

/-- Concatenating the rows produced by `groupAux` gives back the current row
followed by the remaining input: grouping only partitions the sequence. -/
theorem groupAux_flatten (tol : Int) :
    ∀ (l : List Feature) (anchor : Int) (cur : List Feature),
      (groupAux tol anchor cur l).flatten = cur ++ l
  | [], _, _ => by simp [groupAux]
  | f :: fs, anchor, cur => by
    unfold groupAux
    split
    · rw [groupAux_flatten tol fs anchor (cur ++ [f])]
      simp
    · rw [List.flatten_cons, groupAux_flatten tol fs f.y [f]]
      simp

/-- Concatenating the rows produced by `groupRows` gives back the input. -/
theorem groupRows_flatten (tol : Int) (l : List Feature) : (groupRows tol l).flatten = l := by
  cases l with
  | nil => rfl
  | cons f fs => rw [groupRows, groupAux_flatten tol fs f.y [f]]; rfl

/-- Every row emitted by `groupAux` from a nonempty current row is nonempty. -/
theorem groupAux_ne_nil (tol : Int) :
    ∀ (l : List Feature) (anchor : Int) (cur : List Feature), cur ≠ [] →
      ∀ r ∈ groupAux tol anchor cur l, r ≠ []
  | [], _, cur, hcur => by
    intro r hr
    simp only [groupAux, List.mem_singleton] at hr
    rwa [hr]
  | f :: fs, anchor, cur, hcur => by
    intro r hr
    unfold groupAux at hr
    split at hr
    · exact groupAux_ne_nil tol fs anchor (cur ++ [f]) (by simp) r hr
    · rcases List.mem_cons.1 hr with h | h
      · rwa [h]
      · exact groupAux_ne_nil tol fs f.y [f] (by simp) r h

/-- Every row emitted by `groupRows` is nonempty. -/
theorem groupRows_ne_nil (tol : Int) (l : List Feature) :
    ∀ r ∈ groupRows tol l, r ≠ [] := by
  cases l with
  | nil => intro r hr; simp [groupRows] at hr
  | cons f fs => exact groupAux_ne_nil tol fs f.y [f] (by simp)

/-- Sorting each row by `x` permutes the concatenation of the rows. -/
theorem flatten_map_sortAscX_perm :
    ∀ rows : List (List Feature), ((rows.map sortAscX).flatten).Perm rows.flatten
  | [] => List.Perm.refl _
  | r :: rows => by
    rw [List.map_cons, List.flatten_cons, List.flatten_cons]
    exact (List.perm_insertionSort ascX r).append (flatten_map_sortAscX_perm rows)

/-! ## C4: conservation of sort_features_A -/

/-- C4: `sort_features_A` returns a permutation of its input for every
input list and tolerance (so lengths agree and every feature appears with
its input multiplicity), and the empty input yields the empty output. -/
theorem C4_conservation (fs : List Feature) (tol : Int) :
    (sort_features_A fs tol).Perm fs ∧ sort_features_A [] tol = [] := by
  refine ⟨?_, rfl⟩
  unfold sort_features_A rowClusterA
  have h1 := flatten_map_sortAscX_perm (groupRows tol (sortDescY fs))
  rw [groupRows_flatten] at h1
  exact h1.trans (List.perm_insertionSort descY fs)

/-! ## C9: rows are nonempty and sorted left-to-right -/

/-- C9: every row produced by the row-clustering primitive of
`sort_features_A` is nonempty and its `x` coordinates are non-decreasing. -/
theorem C9_rows_sorted_nonempty (fs : List Feature) (tol : Int)
    (r : List Feature) (hr : r ∈ rowClusterA fs tol) :
    r ≠ [] ∧ r.Sorted ascX := by
  unfold rowClusterA at hr
  rcases List.mem_map.1 hr with ⟨r', hr', hsort⟩
  constructor
  · intro hnil
    have hperm := List.perm_insertionSort ascX r'
    rw [show List.insertionSort ascX r' = r from hsort, hnil] at hperm
    exact groupRows_ne_nil tol (sortDescY fs) r' hr' hperm.symm.eq_nil
  · rw [← hsort]
    exact List.sorted_insertionSort ascX r'

/-- C9, witness: the two-feature input `[("a",3,0), ("b",1,0)]` with
tolerance 5 produces the single row `[("b",1,0), ("a",3,0)]`, which is
nonempty and sorted by `x`. -/
theorem C9_rows_sorted_nonempty_witness :
    ([⟨"b", 1, 0⟩, ⟨"a", 3, 0⟩] : List Feature) ≠ [] ∧
      ([⟨"b", 1, 0⟩, ⟨"a", 3, 0⟩] : List Feature).Sorted ascX :=
  C9_rows_sorted_nonempty [⟨"a", 3, 0⟩, ⟨"b", 1, 0⟩] 5 _ (by decide)

/-! ## C8: two features within tolerance share a row -/

/-- C8: an input of exactly two features whose `y` coordinates differ by at
most `tol` is clustered into a single row containing both, whichever order
they appear in. -/
theorem C8_row_tolerance (f g : Feature) (tol : Int) (h : |f.y - g.y| ≤ tol) :
    (rowClusterA [f, g] tol).length = 1 ∧
      ∃ r ∈ rowClusterA [f, g] tol, f ∈ r ∧ g ∈ r := by
  have hgf : |g.y - f.y| ≤ tol := by rwa [abs_sub_comm]
  unfold rowClusterA sortDescY
  by_cases hfg : descY f g
  · rw [show List.insertionSort descY [f, g] = [f, g] by
      simp [List.insertionSort, List.orderedInsert, hfg]]
    rw [show groupRows tol [f, g] = [[f, g]] by simp [groupRows, groupAux, hgf]]
    refine ⟨rfl, sortAscX [f, g], by simp, ?_, ?_⟩ <;>
      · rw [sortAscX, List.mem_insertionSort]; simp
  · rw [show List.insertionSort descY [f, g] = [g, f] by
      simp [List.insertionSort, List.orderedInsert, hfg]]
    rw [show groupRows tol [g, f] = [[g, f]] by simp [groupRows, groupAux, h]]
    refine ⟨rfl, sortAscX [g, f], by simp, ?_, ?_⟩ <;>
      · rw [sortAscX, List.mem_insertionSort]; simp

/-- C8, witness: features at y = 0 and y = 50 with tolerance 100 land in
one common row. -/
theorem C8_row_tolerance_witness :
    (rowClusterA [⟨"a", 0, 0⟩, ⟨"b", 1, 50⟩] 100).length = 1 ∧
      ∃ r ∈ rowClusterA [⟨"a", 0, 0⟩, ⟨"b", 1, 50⟩] 100,
        (⟨"a", 0, 0⟩ : Feature) ∈ r ∧ (⟨"b", 1, 50⟩ : Feature) ∈ r :=
  C8_row_tolerance ⟨"a", 0, 0⟩ ⟨"b", 1, 50⟩ 100 (by decide)

/-! ## Length lemmas for the grid aligner -/

/-- `assignGo` emits exactly one cell per expected position. -/
theorem assignGo_length (tolx : ℚ) :
    ∀ (ps : List (Option ℚ)) (cells : List (Feature × Bool)),
      (assignGo tolx cells ps).length = ps.length
  | [], _ => rfl
  | none :: ps, cells => by
    simp [assignGo, assignGo_length tolx ps]
  | some e :: ps, cells => by
    simp [assignGo, assignGo_length tolx ps]

/-- Padding the output of `assignGo` over `cols` positions yields `cols`
cells (the padding loop is actually a no-op). -/
theorem padCols_assignGo_length (cols : Nat) (tolx : ℚ) (cells : List (Feature × Bool))
    (ps : List (Option ℚ)) (hps : ps.length = cols) :
    (padCols cols (assignGo tolx cells ps)).length = cols := by
  rw [padCols, List.length_append, List.length_replicate, assignGo_length, hps]
  omega

/-- Every successful row alignment has exactly `cols` cells. -/
theorem alignRow_ok_length (cols : Nat) (tolx : ℚ) (row : List Feature)
    (nr : List (Option Feature)) (h : alignRow cols tolx row = .ok nr) :
    nr.length = cols := by
  unfold alignRow at h
  split at h
  · injection h with h'
    subst h'
    exact padCols_assignGo_length cols tolx _ _ (List.length_replicate _ _)
  · split at h
    · injection h with h'
      subst h'
      exact padCols_assignGo_length cols tolx _ _ (List.length_replicate _ _)
    · split at h
      · cases h
      · injection h with h'
        subst h'
        exact padCols_assignGo_length cols tolx _ _ (by simp)

/-- After trimming and padding there are exactly `r` rows. -/
theorem padTrim_length (r : Nat) (rows : List (List Feature)) :
    (padTrim r rows).length = r := by
  rw [padTrim, List.length_append, List.length_take, List.length_replicate]
  omega

/-- A successful `mapRowsE` pass over rows whose alignments all have `cols`
cells yields a flattened grid of `rows.length * cols` cells. -/
theorem mapRowsE_ok_length (f : List Feature → Except Unit (List (Option Feature))) (cols : Nat)
    (hf : ∀ row nr, f row = .ok nr → nr.length = cols) :
    ∀ (rows : List (List Feature)) (grid : List (List (Option Feature))),
      mapRowsE f rows = .ok grid → grid.flatten.length = rows.length * cols
  | [], grid => by
    intro h
    injection h with h'
    subst h'
    simp
  | r :: rs, grid => by
    intro h
    unfold mapRowsE at h
    cases hfr : f r with
    | error e => rw [hfr] at h; cases h
    | ok nr =>
      rw [hfr] at h
      cases hm : mapRowsE f rs with
      | error e => rw [hm] at h; cases h
      | ok nrs =>
        rw [hm] at h
        injection h with h'
        subst h'
        rw [List.flatten_cons, List.length_append, hf r nr hfr,
          mapRowsE_ok_length f cols hf rs nrs hm, List.length_cons, Nat.succ_mul,
          Nat.add_comm]

/-! ## C2: the grid shape invariant -/

/-- C2, amended: whenever `sort_features_B` returns normally (which fails
only for `expected_cols = 1` meeting a row of two or more features), the
result has exactly `expected_rows * expected_cols` elements, for every
input list and every `expected_rows`, `expected_cols`. -/
theorem C2_grid_shape (fs : List Feature) (r c : Nat) (toly : Int) (tolx : ℚ)
    (out : List (Option Feature)) (h : sort_features_B fs r c toly tolx = .ok out) :
    out.length = r * c := by
  unfold sort_features_B at h
  cases hm : mapRowsE (alignRow c tolx) (padTrim r (groupRows toly (sortDescY fs))) with
  | error e => rw [hm] at h; cases h
  | ok grid =>
    rw [hm] at h
    injection h with h'
    subst h'
    have hlen := mapRowsE_ok_length (alignRow c tolx) c
      (fun row nr hnr => alignRow_ok_length c tolx row nr hnr) _ grid hm
    rwa [padTrim_length] at hlen

/-- C2, witness: the empty input aligned to a 2×3 grid gives the six-cell
all-empty grid, of length `2 * 3`. -/
theorem C2_grid_shape_witness :
    ([none, none, none, none, none, none] : List (Option Feature)).length = 2 * 3 :=
  C2_grid_shape [] 2 3 100 20 [none, none, none, none, none, none] (by decide)

/-! ## C3: absence of exceptions -/

/-- Row alignment succeeds whenever `cols ≠ 1`. -/
theorem alignRow_ok_of_ne_one (cols : Nat) (tolx : ℚ) (row : List Feature) (hc : cols ≠ 1) :
    ∃ nr, alignRow cols tolx row = .ok nr := by
  unfold alignRow
  by_cases h1 : sortAscX row = []
  · rw [dif_pos h1]
    exact ⟨_, rfl⟩
  · rw [dif_neg h1]
    by_cases h2 : (sortAscX row).length = 1
    · rw [if_pos h2]
      exact ⟨_, rfl⟩
    · rw [if_neg h2, if_neg hc]
      exact ⟨_, rfl⟩

/-- `mapRowsE` succeeds when every row alignment succeeds. -/
theorem mapRowsE_ok_of_all (f : List Feature → Except Unit (List (Option Feature)))
    (hall : ∀ row, ∃ nr, f row = .ok nr) :
    ∀ rows : List (List Feature), ∃ grid, mapRowsE f rows = .ok grid
  | [] => ⟨[], rfl⟩
  | r :: rs => by
    obtain ⟨nr, hnr⟩ := hall r
    obtain ⟨grid, hgrid⟩ := mapRowsE_ok_of_all f hall rs
    refine ⟨nr :: grid, ?_⟩
    unfold mapRowsE
    rw [hnr, hgrid]

/-- C3, amended: for every input and every `expected_cols ≠ 1` (so in
particular for every `expected_cols ≥ 2`), `sort_features_B` returns
normally; the single exception of the code is the division by zero reached
when `expected_cols = 1` meets a row with at least two features. -/
theorem C3_no_exception (fs : List Feature) (r c : Nat) (toly : Int) (tolx : ℚ)
    (hc : c ≠ 1) :
    ∃ out, sort_features_B fs r c toly tolx = .ok out := by
  obtain ⟨grid, hgrid⟩ := mapRowsE_ok_of_all (alignRow c tolx)
    (fun row => alignRow_ok_of_ne_one c tolx row hc)
    (padTrim r (groupRows toly (sortDescY fs)))
  refine ⟨grid.flatten, ?_⟩
  unfold sort_features_B
  rw [hgrid]

/-- C3, witness: a one-feature input aligned to a 1×2 grid returns
normally. -/
theorem C3_no_exception_witness :
    ∃ out, sort_features_B [⟨"w", 2, 4⟩] 1 2 100 20 = Except.ok out :=
  C3_no_exception [⟨"w", 2, 4⟩] 1 2 100 20 (by decide)

/-! ## Counting lemmas for the greedy matching -/

/-- When the scan finds nothing, the claimed flags are unchanged. -/
theorem scanRow_fst_none (tolx e : ℚ) :
    ∀ cells : List (Feature × Bool),
      (scanRow tolx e cells).1 = none → (scanRow tolx e cells).2 = cells
  | [] => fun _ => rfl
  | (g, u) :: rest => by
    intro h
    by_cases hcond : u = false ∧ |(g.x : ℚ) - e| ≤ tolx
    · simp only [scanRow, if_pos hcond] at h
      cases h
    · simp only [scanRow, if_neg hcond] at h ⊢
      rw [scanRow_fst_none tolx e rest h]

/-- When the scan claims `f`, the unclaimed features before the scan are a
permutation of `f` together with the unclaimed features after it. -/
theorem scanRow_fst_some (tolx e : ℚ) :
    ∀ (cells : List (Feature × Bool)) (f : Feature),
      (scanRow tolx e cells).1 = some f →
      (unusedOf cells).Perm (f :: unusedOf (scanRow tolx e cells).2)
  | [], f => by intro h; cases h
  | (g, u) :: rest, f => by
    intro h
    by_cases hcond : u = false ∧ |(g.x : ℚ) - e| ≤ tolx
    · simp only [scanRow, if_pos hcond] at h ⊢
      injection h with h'
      subst h'
      rcases hcond with ⟨hu, _⟩
      subst hu
      simp [unusedOf]
    · simp only [scanRow, if_neg hcond] at h ⊢
      have ih := scanRow_fst_some tolx e rest f h
      cases u with
      | true => simpa [unusedOf] using ih
      | false =>
        simp only [unusedOf]
        exact (ih.cons g).trans (List.Perm.swap f g _)

/-- Each feature value is emitted by `assignGo` at most as often as it
occurs unclaimed among the cells. -/
theorem assignGo_count (tolx : ℚ) :
    ∀ (ps : List (Option ℚ)) (cells : List (Feature × Bool)) (x : Feature),
      ((assignGo tolx cells ps).filterMap id).count x ≤ (unusedOf cells).count x
  | [], cells, x => by simp [assignGo]
  | none :: ps, cells, x => by
    simp only [assignGo, List.filterMap_cons, id]
    exact assignGo_count tolx ps cells x
  | some e :: ps, cells, x => by
    simp only [assignGo]
    cases hsc : (scanRow tolx e cells).1 with
    | none =>
      rw [scanRow_fst_none tolx e cells hsc]
      simp only [List.filterMap_cons, id]
      exact assignGo_count tolx ps cells x
    | some f =>
      have hperm := scanRow_fst_some tolx e cells f hsc
      have ih := assignGo_count tolx ps (scanRow tolx e cells).2 x
      simp only [List.filterMap_cons, id]
      rw [List.count_cons, hperm.count_eq, List.count_cons]
      exact Nat.add_le_add_right ih _

/-- Initially every feature of the sorted row is unclaimed. -/
theorem unusedOf_withFlags : ∀ rs : List Feature, unusedOf (withFlags rs) = rs
  | [] => rfl
  | f :: l => congrArg (f :: ·) (unusedOf_withFlags l)

/-- Padding with `none` cells does not change the matched features. -/
theorem padCols_filterMap (cols : Nat) (nr : List (Option Feature)) :
    (padCols cols nr).filterMap id = nr.filterMap id := by
  have hrep : ∀ k, (List.replicate k (none : Option Feature)).filterMap id = [] := by
    intro k
    induction k with
    | zero => rfl
    | succ n ih => simp [List.replicate, ih]
  rw [padCols, List.filterMap_append, hrep, List.append_nil]

/-- The features placed in one aligned row occur at most as often as in the
sorted row itself. -/
theorem padCols_assignGo_count (cols : Nat) (tolx : ℚ) (rs : List Feature)
    (ps : List (Option ℚ)) (x : Feature) :
    (((padCols cols (assignGo tolx (withFlags rs) ps)).filterMap id)).count x ≤ rs.count x := by
  rw [padCols_filterMap]
  have h := assignGo_count tolx ps (withFlags rs) x
  rwa [unusedOf_withFlags] at h

/-- A successful row alignment places each feature value at most as often
as it occurs in the row. -/
theorem alignRow_count (cols : Nat) (tolx : ℚ) (row : List Feature)
    (nr : List (Option Feature)) (h : alignRow cols tolx row = .ok nr) (x : Feature) :
    (nr.filterMap id).count x ≤ row.count x := by
  have hsort : (sortAscX row).count x = row.count x :=
    (List.perm_insertionSort ascX row).count_eq x
  unfold alignRow at h
  split at h
  · injection h with h'
    subst h'
    exact (padCols_assignGo_count cols tolx _ _ x).trans (le_of_eq hsort)
  · split at h
    · injection h with h'
      subst h'
      exact (padCols_assignGo_count cols tolx _ _ x).trans (le_of_eq hsort)
    · split at h
      · cases h
      · injection h with h'
        subst h'
        exact (padCols_assignGo_count cols tolx _ _ x).trans (le_of_eq hsort)

/-- A successful `mapRowsE` pass places each feature value at most as often
as it occurs among the rows. -/
theorem mapRowsE_count (f : List Feature → Except Unit (List (Option Feature)))
    (hf : ∀ row nr, f row = .ok nr → ∀ x, (nr.filterMap id).count x ≤ row.count x) :
    ∀ (rows : List (List Feature)) (grid : List (List (Option Feature))),
      mapRowsE f rows = .ok grid →
      ∀ x, (grid.flatten.filterMap id).count x ≤ rows.flatten.count x
  | [], grid => by
    intro h x
    injection h with h'
    subst h'
    simp
  | r :: rs, grid => by
    intro h x
    unfold mapRowsE at h
    cases hfr : f r with
    | error e => rw [hfr] at h; cases h
    | ok nr =>
      rw [hfr] at h
      cases hm : mapRowsE f rs with
      | error e => rw [hm] at h; cases h
      | ok nrs =>
        rw [hm] at h
        injection h with h'
        subst h'
        rw [List.flatten_cons, List.flatten_cons, List.filterMap_append, List.count_append,
          List.count_append]
        exact Nat.add_le_add (hf r nr hfr x) (mapRowsE_count f hf rs nrs hm x)

/-- Flattening padding rows contributes nothing. -/
theorem flatten_replicate_nil :
    ∀ k : Nat, (List.replicate k ([] : List Feature)).flatten = []
  | 0 => rfl
  | n + 1 => by simp [List.replicate, flatten_replicate_nil n]

/-- Trimming and padding the rows never increases any feature count. -/
theorem padTrim_count (r : Nat) (rows : List (List Feature)) (x : Feature) :
    ((padTrim r rows).flatten).count x ≤ rows.flatten.count x := by
  rw [padTrim, List.flatten_append, flatten_replicate_nil, List.append_nil]
  conv_rhs => rw [← List.take_append_drop r rows]
  rw [List.flatten_append, List.count_append]
  exact Nat.le_add_right _ _

/-! ## C10: cells come from the input without duplication -/

/-- C10: in every successful grid, each feature value fills at most as many
cells as it has occurrences in the input; in particular a feature absent
from the input never appears, and no input occurrence fills two cells. -/
theorem C10_no_duplication (fs : List Feature) (r c : Nat) (toly : Int) (tolx : ℚ)
    (out : List (Option Feature)) (h : sort_features_B fs r c toly tolx = .ok out)
    (x : Feature) :
    (out.filterMap id).count x ≤ fs.count x := by
  unfold sort_features_B at h
  cases hm : mapRowsE (alignRow c tolx) (padTrim r (groupRows toly (sortDescY fs))) with
  | error e => rw [hm] at h; cases h
  | ok grid =>
    rw [hm] at h
    injection h with h'
    subst h'
    have h1 := mapRowsE_count (alignRow c tolx)
      (fun row nr hnr y => alignRow_count c tolx row nr hnr y) _ grid hm x
    have h2 := padTrim_count r (groupRows toly (sortDescY fs)) x
    have h3 : (groupRows toly (sortDescY fs)).flatten.count x = fs.count x := by
      rw [groupRows_flatten]
      exact (List.perm_insertionSort descY fs).count_eq x
    omega

/-- C10, witness: the empty input aligned to a 1×2 grid yields two empty
cells; the feature `("w",0,0)` fills no cell, matching its zero occurrences
in the input. -/
theorem C10_no_duplication_witness :
    (([none, none] : List (Option Feature)).filterMap id).count ⟨"w", 0, 0⟩ ≤
      ([] : List Feature).count ⟨"w", 0, 0⟩ :=
  C10_no_duplication [] 1 2 100 20 [none, none] (by decide) ⟨"w", 0, 0⟩
